import Mathlib

/-!
Verification of the claim-adjudication repository.

The first part embeds the document-processing and display code of
src/ui/app.py: the per-chunk markdown formatter, the streaming display
loop of main, the per-file document processor and the content
preparation step.  The second part models the adjudication workflow
itself; in src/agents/adjudication_workflow.py that workflow exists only
as natural-language instructions handed to an external agent framework,
so those definitions are modelled from the specification, as marked on
each of them.
-/

/-! ## Python value model for src/ui/app.py -/

/-- A confidence value as found in a chunk dictionary: either a numeric
value (Python int/float, modelled as a rational) or a string on which
Python float() raises. -/
inductive ConfVal where
  | num (q : Rat)
  | nonNum (s : String)
deriving DecidableEq

/-- A Python value as handled by format_chunk_to_markdown: a string, an
integer, None, or a dictionary carrying the keys the code reads
(title, action, result, reasoning, confidence, content); a missing text
key is the empty string, matching the .get(key, <default>) accesses. -/
inductive Val where
  | str (s : String)
  | intV (n : Int)
  | noneV
  | dict (title action result reasoning : String)
      (confidence : Option ConfVal) (content : Option Val)

/-- Python str() of an Option ConfVal (the confidence entry). -/
def confStr : Option ConfVal → String
  | none => "None"
  | some (ConfVal.num q) => toString q
  | some (ConfVal.nonNum s) => s

/-- Python str() on the modelled values. -/
def pyStr : Val → String
  | Val.str s => s
  | Val.intV n => toString n
  | Val.noneV => "None"
  | Val.dict t a r re c co =>
      "\x7btitle: " ++ t ++ ", action: " ++ a ++ ", result: " ++ r ++
      ", reasoning: " ++ re ++ ", confidence: " ++ confStr c ++
      ", content: " ++ (match co with
        | none => "missing"
        | some v => pyStr v) ++ "\x7d"

/-- Python float() applied to the confidence entry of the chunk dict,
with the default 0 for a missing key; raises (error) on a non-numeric
string. -/
def pyFloat : Option ConfVal → Except String Rat
  | none => Except.ok 0
  | some (ConfVal.num q) => Except.ok q
  | some (ConfVal.nonNum s) =>
      Except.error ("could not convert string to float: " ++ s)

/-- Round half to even, as Python float formatting with :.0f does. -/
def roundHalfEven (q : Rat) : Int :=
  let f : Int := q.floor
  let frac : Rat := q - (f : Rat)
  if frac < 1/2 then f
  else if 1/2 < frac then f + 1
  else if f % 2 = 0 then f else f + 1

/-- The confidence section text: f-string percentage with :.0f. -/
def confidencePercent (q : Rat) : String :=
  toString (roundHalfEven (q * 100)) ++ "%"

/-- The five label/content section pairs built by
format_chunk_to_markdown for a dictionary chunk. -/
def chunkSections (t a r re confText : String) : List (String × String) :=
  [("📋 Title", t), ("🎯 Action", a), ("📊 Result", r),
   ("💭 Reasoning", re), ("📈 Confidence", confText)]

/-- The sections kept by the loop: only those whose content is truthy,
which for strings means non-empty. -/
def includedSections (t a r re confText : String) : List (String × String) :=
  (chunkSections t a r re confText).filter (fun p => p.2 != "")

/-- One styled section div, as appended inside the loop. -/
def renderSection (p : String × String) : String :=
  "\n<div style=\"margin-bottom:10px;\">\n<strong>" ++ p.1 ++
  ":</strong><br/>" ++ p.2 ++ "\n</div>"

/-- The opening div of the structured box. -/
def boxOpenDiv : String :=
  "<div style=\"border:1px solid #ddd; border-radius:5px; padding:10px; margin:10px 0; background-color:#f8f9fa;\">"

/-- The assembled box around the rendered sections. -/
def sectionBox (secs : List (String × String)) : String :=
  boxOpenDiv ++ String.join (secs.map renderSection) ++ "</div>"

/-- format_chunk_to_markdown of src/ui/app.py: non-dictionary input is
returned as str(input); a dictionary is rendered as a box of its
non-empty sections; if building the sections raises (float() on the
confidence value), the function falls back to str(input). -/
def formatChunkToMarkdown : Val → String
  | Val.dict t a r re c co =>
      match pyFloat c with
      | Except.ok q =>
          sectionBox (includedSections t a r re (confidencePercent q))
      | Except.error _ => pyStr (Val.dict t a r re c co)
  | v => pyStr v

/-! ## The streaming display loop of main (src/ui/app.py) -/

/-- The chunk dictionary shape read by the main loop: the fields of a
dict chunk or of a successful model_dump. -/
structure DictChunk where
  title : String
  action : String
  result : String
  reasoning : String
  confidence : Option ConfVal
  content : Option Val

/-- The dictionary as a plain value (used when the content key is
absent and chunk_res.get falls back to the dict itself). -/
def DictChunk.toVal (d : DictChunk) : Val :=
  Val.dict d.title d.action d.result d.reasoning d.confidence d.content

/-- chunk_res.get of the content key with the dict itself as default. -/
def dictGetContent (d : DictChunk) : Val :=
  d.content.getD d.toVal

/-- A streamed chunk as consumed by the main loop: either already a
dict, or an object whose model_dump either yields a dict or raises. -/
inductive Chunk where
  | asDict (d : DictChunk)
  | asObj (dump : Except String DictChunk)

/-- The inline error box appended when handling a chunk raises. -/
def errorBox (msg : String) : String :=
  "\n            <div style=\"border:1px solid #ffcdd2; border-radius:5px; padding:10px; margin:10px 0; background-color:#ffebee;\">\n            Error processing chunk: " ++
  msg ++ "\n            </div>\n            "

/-- The body of the main loop for one chunk: extract the content and
format it, or append an error box if extraction raised. -/
def processChunk : Chunk → String
  | Chunk.asDict d => formatChunkToMarkdown (dictGetContent d)
  | Chunk.asObj (Except.ok d) => formatChunkToMarkdown (dictGetContent d)
  | Chunk.asObj (Except.error e) => errorBox e

/-- The main loop of src/ui/app.py over the response stream: the
response_collector accumulated across all chunks, which is what the
placeholder displays to the caller. -/
def uiMainLoop (stream : List Chunk) : String :=
  stream.foldl (fun acc ch => acc ++ processChunk ch) ""

/-! ## process_documents and prepare_content (src/ui/app.py) -/

/-- An uploaded file together with the outcomes of its external
effects: saving it to the temp directory and converting it with the
document converter (either may raise, modelled as error). -/
structure UploadedFile where
  name : String
  saveResult : Except String Unit
  convertResult : Except String String

/-- Status field of a processing result dictionary. -/
inductive DocStatus where
  | success
  | error
deriving DecidableEq

/-- One result dictionary produced by process_document or by the
error handler of process_documents. -/
structure DocResult where
  status : DocStatus
  file_name : String
  doc_type : String
  content : Option String
  error : Option String
deriving DecidableEq

/-- process_document of src/ui/app.py: convert the saved file; on
success return a success dict with the exported markdown, on any
exception an error dict. -/
def processDocument (f : UploadedFile) (docType : String) : DocResult :=
  match f.convertResult with
  | Except.ok md => ⟨DocStatus.success, f.name, docType, some md, none⟩
  | Except.error e => ⟨DocStatus.error, f.name, docType, none, some e⟩

/-- One iteration of the loops in process_documents: save the file and
process it; an exception while saving is caught and becomes an error
dict for this file alone. -/
def processOne (f : UploadedFile) (docType : String) : DocResult :=
  match f.saveResult with
  | Except.ok _ => processDocument f docType
  | Except.error e => ⟨DocStatus.error, f.name, docType, none, some e⟩

/-- The contribution of one optional main document slot. -/
def optSlot (f : Option UploadedFile) (docType : String) : List DocResult :=
  match f with
  | none => []
  | some file => [processOne file docType]

/-- process_documents of src/ui/app.py over the documented input shape
[claim_file, discharge_file, bills_file, other_files]: the three main
slots are processed when present, then every supporting document. -/
def processDocuments (claimFile dischargeFile billsFile : Option UploadedFile)
    (otherFiles : Option (List UploadedFile)) : List DocResult :=
  optSlot claimFile ("Claim Form") ++
  optSlot dischargeFile ("Discharge Note") ++
  optSlot billsFile ("Medical Bills") ++
  (otherFiles.getD []).map (fun f => processOne f ("Supporting Document"))

/-- Well-formedness of one result dictionary as the claim states it:
a success result carries a content entry, an error result an error
entry. -/
def wellFormedResult (r : DocResult) : Prop :=
  (r.status = DocStatus.success ∧ r.content.isSome = true) ∨
  (r.status = DocStatus.error ∧ r.error.isSome = true)

/-- The doc_type_order lookup of prepare_content, default 999. -/
def docTypeOrder (t : String) : Nat :=
  if t = "Claim Form" then 1
  else if t = "Discharge Note" then 2
  else if t = "Medical Bills" then 3
  else if t = "Supporting Document" then 4
  else 999

/-- Sort key of one result in prepare_content. -/
def resultKey (r : DocResult) : Nat := docTypeOrder r.doc_type

/-- Stable insertion of a result in front of every entry with a
strictly greater or equal key that followed it in the input. -/
def insertByKey (x : DocResult) : List DocResult → List DocResult
  | [] => [x]
  | y :: ys =>
      if resultKey y < resultKey x then y :: insertByKey x ys
      else x :: y :: ys

/-- The stable sort by document type performed by sorted(...) in
prepare_content (Python sorted is stable). -/
def sortByDocType : List DocResult → List DocResult
  | [] => []
  | x :: xs => insertByKey x (sortByDocType xs)

/-- The 50-character separator line. -/
def sepLine : String := String.mk (List.replicate 50 '=')

/-- The block appended to the content string for one result: the
success block with the document content, or the error block with the
error details. -/
def blockOf (r : DocResult) : String :=
  match r.status with
  | DocStatus.success =>
      "\n" ++ sepLine ++ "\n\nDocument Type: " ++ r.doc_type ++
      "\nFile Name: " ++ r.file_name ++ "\n\nContent:\n" ++
      r.content.getD "" ++ "\n\n"
  | DocStatus.error =>
      "\n" ++ sepLine ++ "\n\nDocument Type: " ++ r.doc_type ++
      "\nFile Name: " ++ r.file_name ++
      "\nStatus: Error processing document\nError Details: " ++
      r.error.getD "" ++ "\n\n"

/-- prepare_content of src/ui/app.py: sort the results by document
type and concatenate one block per result. -/
def prepareContent (results : List DocResult) : String :=
  String.join ((sortByDocType results).map blockOf)

/-! ## Data model of the adjudication workflow

In src/agents/adjudication_workflow.py every stage of the workflow is a
configured external agent whose behaviour is requested in prompt text
only; no rule application, grading, reconciliation or audit logic is
implemented as code there.  The definitions below are therefore
modelled from the specification (its data model and component design),
as each doc comment records. -/

/-- Modelled from the spec: a ClaimLineItem (data model) with category,
claimed amount in whole rupees, and the service duration in days used
by per-day sub-limits.  The rule application and grading logic is
missing from the source, where it exists only as prompt text. -/
structure ClaimLineItem where
  category : String
  claimed : Nat
  days : Nat
deriving DecidableEq

/-- Modelled from the spec: the effect of a PolicyRule (limit,
exclusion, co-pay percentage), covering the effects the scenario and
strategy claims exercise. -/
inductive RuleEffect where
  | subLimitPerDay (amountPerDay : Nat)
  | packageRate (amount : Nat)
  | coPay (percent : Nat)
  | exclusion
deriving DecidableEq

/-- Modelled from the spec: a PolicyRule with identifier, source clause
reference, the line-item category it conditions on, and its effect. -/
structure PolicyRule where
  id : String
  clause : String
  category : String
  effect : RuleEffect
deriving DecidableEq

/-- Modelled from the spec: applying one rule to the running eligible
amount of one line item; a rule only fires on items of its category. -/
def applyRuleAmount (r : PolicyRule) (li : ClaimLineItem) (amt : Nat) : Nat :=
  if r.category = li.category then
    match r.effect with
    | RuleEffect.subLimitPerDay a => min amt (a * li.days)
    | RuleEffect.packageRate a => min amt a
    | RuleEffect.coPay p => amt - amt * p / 100
    | RuleEffect.exclusion => 0
  else amt

/-- Modelled from the spec: one step of the eligible-amount trace (the
rule applied, its clause, and the amount before and after). -/
structure TraceStep where
  ruleId : String
  clause : String
  amountBefore : Nat
  amountAfter : Nat
deriving DecidableEq

/-- Modelled from the spec: run the ordered rule list over one line
item, yielding the final eligible amount and the full trace. -/
def runItemTrace (rules : List PolicyRule) (li : ClaimLineItem) :
    Nat × List TraceStep :=
  rules.foldl
    (fun acc r =>
      let a2 := applyRuleAmount r li acc.1
      (a2, acc.2 ++ [⟨r.id, r.clause, acc.1, a2⟩]))
    (li.claimed, [])

/-- Modelled from the spec: the eligible amount of one line item. -/
def eligibleForItem (rules : List PolicyRule) (li : ClaimLineItem) : Nat :=
  (runItemTrace rules li).1

/-- Modelled from the spec: total eligible amount over all line items. -/
def totalEligible (rules : List PolicyRule) (items : List ClaimLineItem) : Nat :=
  (items.map (eligibleForItem rules)).sum

/-- Modelled from the spec: the eligible-amount trace of a whole claim,
one rule-application sequence per line item in order. -/
def claimTrace (rules : List PolicyRule) (items : List ClaimLineItem) :
    List TraceStep :=
  items.foldl (fun acc li => acc ++ (runItemTrace rules li).2) []

/-- Modelled from the spec: a flagged variance between claimed and
eligible amount, citing the clause of the rule that reduced it. -/
structure VarianceFlag where
  category : String
  amount : Nat
  clause : String
deriving DecidableEq

/-- Modelled from the spec: the clause of the first rule application
that reduced the amount of this item. -/
def firstReducingClause (rules : List PolicyRule) (li : ClaimLineItem) : String :=
  match ((runItemTrace rules li).2.filter
      (fun s => s.amountAfter < s.amountBefore)).head? with
  | some s => s.clause
  | none => ""

/-- Modelled from the spec: the variance flags of a claim, one per line
item whose eligible amount fell short of the claimed amount. -/
def varianceFlagsFor (rules : List PolicyRule) (items : List ClaimLineItem) :
    List VarianceFlag :=
  items.filterMap (fun li =>
    let e := eligibleForItem rules li
    if e < li.claimed then
      some ⟨li.category, li.claimed - e, firstReducingClause rules li⟩
    else none)

/-- Modelled from the spec: a CalculationStrategy — an identifier, its
ordered rule applications, the candidate eligible amount it resolves
to, and the selected mark set by grading. -/
structure CalculationStrategy where
  id : String
  ruleOrder : List PolicyRule
  amount : Nat
  selected : Bool
deriving DecidableEq

/-- Whether a rule is a package-rate rule. -/
def isPackageRule (r : PolicyRule) : Bool :=
  match r.effect with
  | RuleEffect.packageRate _ => true
  | _ => false

/-- Whether a rule is a per-day sub-limit rule. -/
def isSubLimitRule (r : PolicyRule) : Bool :=
  match r.effect with
  | RuleEffect.subLimitPerDay _ => true
  | _ => false

/-- Modelled from the spec: the calculation strategy engine, which the
source requests only in the calculation_agent prompt (Path A standard,
Path B package-rate-first, Path C sub-limit-first/proportionate); each
path applies the same rule set to the same line items in a different
order and resolves to a single numeric eligible amount. -/
def generateStrategies (rules : List PolicyRule) (items : List ClaimLineItem) :
    List CalculationStrategy :=
  let orderA := rules
  let orderB := rules.filter isPackageRule ++
    rules.filter (fun r => !isPackageRule r)
  let orderC := rules.filter isSubLimitRule ++
    rules.filter (fun r => !isSubLimitRule r)
  [⟨"Path A", orderA, totalEligible orderA items, false⟩,
   ⟨"Path B", orderB, totalEligible orderB items, false⟩,
   ⟨"Path C", orderC, totalEligible orderC items, false⟩]

/-- Modelled from the spec: a scored candidate as graded on policy
compliance, arithmetic correctness and completeness, with the variance
from benchmark cost data as tie-break and a hard-constraint flag. -/
structure ScoredStrategy where
  strat : CalculationStrategy
  complianceScore : Nat
  arithmeticScore : Nat
  completenessScore : Nat
  benchmarkVariance : Nat
  violatesHardConstraint : Bool
deriving DecidableEq

/-- Modelled from the spec: the total grading score of a candidate. -/
def totalScore (s : ScoredStrategy) : Nat :=
  s.complianceScore + s.arithmeticScore + s.completenessScore

/-- Modelled from the spec: strict preference between candidates —
higher score wins, ties broken by lower benchmark variance. -/
def betterCandidate (a b : ScoredStrategy) : Bool :=
  if totalScore b < totalScore a then true
  else if totalScore a = totalScore b ∧ a.benchmarkVariance < b.benchmarkVariance
    then true
  else false

/-- Modelled from the spec: one comparison step of the selection scan —
skip candidates violating a hard constraint, otherwise keep the better
of the running best and the current candidate. -/
def selectStep (best : Option (Nat × ScoredStrategy))
    (p : Nat × ScoredStrategy) : Option (Nat × ScoredStrategy) :=
  match best with
  | none => if p.2.violatesHardConstraint then none else some p
  | some q =>
      if p.2.violatesHardConstraint then some q
      else if betterCandidate p.2 q.2 then some p else some q

/-- Modelled from the spec: pick the best non-violating candidate,
keeping the earliest on remaining ties (so the choice is a function of
the candidate list and the scores alone). -/
def selectBest (cands : List ScoredStrategy) : Option (Nat × ScoredStrategy) :=
  cands.enum.foldl selectStep none

/-- Modelled from the spec: the grading step, which the source requests
only in the grader_agent prompt.  It fails with NoValidStrategy when
every candidate violates a hard policy constraint, and otherwise marks
exactly the chosen candidate as selected. -/
def gradeAndSelect (cands : List ScoredStrategy) :
    Except String (List CalculationStrategy) :=
  match selectBest cands with
  | none => Except.error ("NoValidStrategy")
  | some (i, _) =>
      Except.ok (cands.enum.map
        (fun p => { p.2.strat with selected := decide (p.1 = i) }))

/-! ## Parallel analyses, reconciliation and audit trail (modelled) -/

/-- Modelled from the spec: the three independent analysis stages. -/
inductive AnalysisStage where
  | medical
  | fraud
  | financial
deriving DecidableEq

/-- Modelled from the spec: the immutable claim snapshot every analysis
receives (claim line items plus the extracted rule set). -/
structure ClaimSnapshot where
  items : List ClaimLineItem
  rules : List PolicyRule
deriving DecidableEq

/-- Modelled from the spec: the structured verdict of an
AnalysisFinding — medical necessity, a fraud risk score, or the
financial eligible amount with its claimed total and trace. -/
inductive Verdict where
  | medicalNecessity (necessary : Bool)
  | fraudRisk (score : Nat)
  | eligibleOutcome (amount : Nat) (claimed : Nat) (trace : List TraceStep)
deriving DecidableEq

/-- Modelled from the spec: an AnalysisFinding with its stage,
structured verdict and confidence score. -/
structure AnalysisFinding where
  stage : AnalysisStage
  verdict : Verdict
  confidence : Nat
deriving DecidableEq

/-- Modelled from the spec: each analysis as a pure function of the
claim snapshot (the capability contract Analyze(claim, rules) ->
Finding): the medical stage checks every item against the rule set,
the fraud stage scores large-amount indicators, the financial stage
produces the eligible-amount trace. -/
def analyzeStage (k : AnalysisStage) (s : ClaimSnapshot) : AnalysisFinding :=
  match k with
  | AnalysisStage.medical =>
      ⟨AnalysisStage.medical,
       Verdict.medicalNecessity
         (s.items.all (fun li => s.rules.any (fun r => r.category == li.category))),
       80⟩
  | AnalysisStage.fraud =>
      ⟨AnalysisStage.fraud,
       Verdict.fraudRisk ((s.items.filter (fun li => 100000 < li.claimed)).length),
       70⟩
  | AnalysisStage.financial =>
      ⟨AnalysisStage.financial,
       Verdict.eligibleOutcome (totalEligible s.rules s.items)
         ((s.items.map (fun li => li.claimed)).sum)
         (claimTrace s.rules s.items),
       90⟩

/-- Modelled from the spec: the findings store, one optional finding
per stage; a re-run supersedes the stored finding for its stage and
touches no other stage. -/
def runAnalysis (k : AnalysisStage) (s : ClaimSnapshot)
    (m : AnalysisStage → Option AnalysisFinding) :
    AnalysisStage → Option AnalysisFinding :=
  fun k2 => if k2 = k then some (analyzeStage k s) else m k2

/-- Modelled from the spec: dispatch of a list of analysis stages (in
any order) over the same immutable snapshot. -/
def runAnalyses (ks : List AnalysisStage) (s : ClaimSnapshot)
    (m : AnalysisStage → Option AnalysisFinding) :
    AnalysisStage → Option AnalysisFinding :=
  ks.foldl (fun acc k => runAnalysis k s acc) m

/-- Modelled from the spec: discrepancy severity levels. -/
inductive DiscrepancySeverity where
  | low
  | medium
  | high
deriving DecidableEq

/-- Modelled from the spec: a DiscrepancyRecord — the conflicting pair,
its severity, whether it has been resolved, and the stages implicated
(the only ones a resolution may rerun). -/
structure DiscrepancyRecord where
  firstStage : AnalysisStage
  secondStage : AnalysisStage
  description : String
  severity : DiscrepancySeverity
  resolved : Bool
  implicatedStages : List AnalysisStage
deriving DecidableEq

/-- Modelled from the spec: the explicit cross-check — two findings are
contradictory when medical necessity is denied while the financial
analysis approves the full claimed amount. -/
def contradictoryFindings (f g : AnalysisFinding) : Bool :=
  match f.verdict, g.verdict with
  | Verdict.medicalNecessity false, Verdict.eligibleOutcome amt claimed _ =>
      amt == claimed && 0 < claimed
  | _, _ => false

/-- Modelled from the spec: financial materiality of a contradiction —
the approved amount that the conflicting necessity verdict puts at
stake. -/
def materialityOf (f g : AnalysisFinding) : Nat :=
  match f.verdict, g.verdict with
  | Verdict.medicalNecessity false, Verdict.eligibleOutcome amt _ _ => amt
  | _, _ => 0

/-- Modelled from the spec: the fixed severity rubric tied to financial
materiality — High above the configured threshold. -/
def severityOf (threshold m : Nat) : DiscrepancySeverity :=
  if threshold < m then DiscrepancySeverity.high
  else if 0 < m then DiscrepancySeverity.medium
  else DiscrepancySeverity.low

/-- Modelled from the spec: the reconciliation cross-check of one pair
of findings, producing an unresolved DiscrepancyRecord implicating the
two originating stages when the pair is contradictory. -/
def crossCheck (threshold : Nat) (f g : AnalysisFinding) :
    Option DiscrepancyRecord :=
  if contradictoryFindings f g then
    some ⟨f.stage, g.stage, "contradictory findings",
      severityOf threshold (materialityOf f g), false, [f.stage, g.stage]⟩
  else none

/-- Modelled from the spec: the per-claim pipeline state seen by report
assembly — the findings store, the discrepancy records and the claim
snapshot. -/
structure PipelineState where
  findings : AnalysisStage → Option AnalysisFinding
  discrepancies : List DiscrepancyRecord
  snapshot : ClaimSnapshot

/-- Modelled from the spec: report assembly, which must fail rather
than emit a report while any discrepancy record is unresolved. -/
def assembleReport (st : PipelineState) : Except String String :=
  if st.discrepancies.any (fun d => !d.resolved) then
    Except.error ("UnresolvedDiscrepancy")
  else Except.ok ("report")

/-- Modelled from the spec: resolving a discrepancy reruns only the
implicated stages over the snapshot and closes the record; findings of
all other stages are left untouched. -/
def resolveDiscrepancy (dr : DiscrepancyRecord) (st : PipelineState) :
    PipelineState :=
  { st with
    findings := runAnalyses dr.implicatedStages st.snapshot st.findings,
    discrepancies := st.discrepancies.map
      (fun d => if d = dr then { d with resolved := true } else d) }

/-- Modelled from the spec: an AuditEvent with timestamp, stage name,
action description and outcome. -/
structure AuditEvent where
  timestamp : Nat
  stage : String
  action : String
  outcome : String
deriving DecidableEq

/-- Modelled from the spec: the audit log state — a logical clock and
the append-only event list. -/
structure AuditLogState where
  clock : Nat
  events : List AuditEvent
deriving DecidableEq

/-- Modelled from the spec: recording one audit event appends it with
the current clock value and advances the clock; nothing already logged
is deleted or mutated. -/
def recordEvent (stage action outcome : String) (st : AuditLogState) :
    AuditLogState :=
  ⟨st.clock + 1, st.events ++ [⟨st.clock, stage, action, outcome⟩]⟩

/-- Modelled from the spec: the stage transitions of one full claim
run — extraction, the three parallel analyses, calculation,
reconciliation, assembly. -/
def pipelineStages : List (String × String) :=
  [("extraction", "extract policy rules"),
   ("medical analysis", "validate medical necessity"),
   ("fraud analysis", "screen for fraud and compliance"),
   ("financial analysis", "validate costs and benefits"),
   ("calculation", "select and execute calculation strategy"),
   ("reconciliation", "cross-check findings"),
   ("assembly", "assemble final report")]

/-- Modelled from the spec: the audit trail of one full claim run,
one recorded event per stage transition. -/
def runPipelineAudit (st : AuditLogState) : AuditLogState :=
  pipelineStages.foldl (fun s p => recordEvent p.1 p.2 ("completed") s) st

/-! ## Concrete instances used by the scenario claim and the witnesses -/

/-- The room-rent sub-limit rule of the scenario: 2000 rupees per day. -/
def roomRentRule : PolicyRule :=
  ⟨"R-room", "Clause 4.2 room-rent sub-limit", "Room Charges",
   RuleEffect.subLimitPerDay 2000⟩

/-- The rule set of the scenario. -/
def scenarioRules : List PolicyRule := [roomRentRule]

/-- The claimed room charge of the scenario: 15000 over a 5-day stay. -/
def scenarioRoomItem : ClaimLineItem := ⟨"Room Charges", 15000, 5⟩

/-- The three line items of the scenario, totalling 50000. -/
def scenarioItems : List ClaimLineItem :=
  [scenarioRoomItem, ⟨"Surgery", 30000, 5⟩, ⟨"Medicines", 5000, 5⟩]

/-- A sample claim snapshot. -/
def demoSnapshot : ClaimSnapshot := ⟨scenarioItems, scenarioRules⟩

/-- Two sample scored candidates for the grading witness. -/
def demoCands : List ScoredStrategy :=
  [⟨⟨"Path A", [], 42000, false⟩, 9, 8, 8, 1000, false⟩,
   ⟨⟨"Path B", [], 45500, false⟩, 7, 8, 8, 500, false⟩]

/-- The graded output on the sample candidates: Path A selected. -/
def demoSelected : List CalculationStrategy :=
  [⟨"Path A", [], 42000, true⟩, ⟨"Path B", [], 45500, false⟩]

/-- A medical finding denying necessity. -/
def demoMedFinding : AnalysisFinding :=
  ⟨AnalysisStage.medical, Verdict.medicalNecessity false, 80⟩

/-- A financial finding approving the full claimed amount. -/
def demoFinFinding : AnalysisFinding :=
  ⟨AnalysisStage.financial, Verdict.eligibleOutcome 50000 50000 [], 90⟩

/-- The unresolved High discrepancy between the two sample findings. -/
def demoDiscrepancy : DiscrepancyRecord :=
  ⟨AnalysisStage.medical, AnalysisStage.financial, "contradictory findings",
   DiscrepancySeverity.high, false,
   [AnalysisStage.medical, AnalysisStage.financial]⟩

/-- A pipeline state blocked on the sample discrepancy. -/
def demoPipelineState : PipelineState :=
  ⟨fun _ => none, [demoDiscrepancy], demoSnapshot⟩

/-- A sample file that saves and converts. -/
def demoFileA : UploadedFile := ⟨"claim.pdf", Except.ok (), Except.ok ("CLAIM")⟩

/-- A sample file whose conversion raises. -/
def demoFileB : UploadedFile :=
  ⟨"bills.pdf", Except.ok (), Except.error ("convert failed")⟩

/-- A sample file whose save raises. -/
def demoFileC : UploadedFile :=
  ⟨"note.pdf", Except.error ("disk full"), Except.ok ("X")⟩

/-- Sample processing results for the ordering witness. -/
def demoResults : List DocResult :=
  [⟨DocStatus.error, "bills.pdf", "Medical Bills", none, some ("E1")⟩,
   ⟨DocStatus.success, "claim.pdf", "Claim Form", some ("C1"), none⟩,
   ⟨DocStatus.success, "claim2.pdf", "Claim Form", some ("C2"), none⟩]

/-- A chunk that formats successfully to plain report text. -/
def demoGoodChunk : Chunk :=
  Chunk.asDict ⟨"", "", "", "", none, some (Val.str ("REPORT"))⟩

/-! ## Helper lemmas -/

theorem uiLoop_foldl_acc (l : List Chunk) (acc : String) :
    l.foldl (fun a c => a ++ processChunk c) acc = acc ++ uiMainLoop l := by
  induction l generalizing acc with
  | nil => simp [uiMainLoop, String.append_empty]
  | cons ch t ih =>
      show t.foldl _ (acc ++ processChunk ch) = acc ++ uiMainLoop ([ch] ++ t)
      rw [ih]
      have h2 : uiMainLoop ([ch] ++ t)
          = t.foldl (fun a c => a ++ processChunk c) (("" : String) ++ processChunk ch) := rfl
      rw [h2, ih, String.empty_append, String.append_assoc]

theorem uiLoop_split (xs : List Chunk) (ch : Chunk) (ys : List Chunk) :
    uiMainLoop (xs ++ ch :: ys) = uiMainLoop xs ++ (processChunk ch ++ uiMainLoop ys) := by
  show (xs ++ ch :: ys).foldl (fun a c => a ++ processChunk c) "" = _
  rw [List.foldl_append]
  show ys.foldl _ ((xs.foldl _ "") ++ processChunk ch) = _
  rw [uiLoop_foldl_acc, uiLoop_foldl_acc xs, String.empty_append, String.append_assoc]

theorem confidencePercent_ne_empty (q : Rat) : confidencePercent q ≠ "" := by
  intro h
  have h2 := congrArg String.length h
  simp [confidencePercent, String.length_append] at h2
  exact absurd h2.2 (by decide)

theorem insertByKey_perm (x : DocResult) (l : List DocResult) :
    List.Perm (insertByKey x l) (x :: l) := by
  induction l with
  | nil => exact List.Perm.refl _
  | cons y ys ih =>
      unfold insertByKey
      split
      · exact (List.Perm.cons y ih).trans (List.Perm.swap x y ys)
      · exact List.Perm.refl _

theorem sortByDocType_perm (l : List DocResult) :
    List.Perm (sortByDocType l) l := by
  induction l with
  | nil => exact List.Perm.refl _
  | cons x xs ih =>
      exact (insertByKey_perm x (sortByDocType xs)).trans (ih.cons x)

theorem pairwise_insertByKey (x : DocResult) (l : List DocResult)
    (h : List.Pairwise (fun a b => resultKey a ≤ resultKey b) l) :
    List.Pairwise (fun a b => resultKey a ≤ resultKey b) (insertByKey x l) := by
  induction l with
  | nil => simp [insertByKey]
  | cons y ys ih =>
      rcases List.pairwise_cons.mp h with ⟨hy, hys⟩
      unfold insertByKey
      split
      case isTrue hlt =>
        refine List.pairwise_cons.mpr ⟨?_, ih hys⟩
        intro z hz
        rcases List.mem_cons.mp ((insertByKey_perm x ys).mem_iff.mp hz) with hzx | hz2
        · rw [hzx]; exact Nat.le_of_lt hlt
        · exact hy z hz2
      case isFalse hge =>
        have hxy : resultKey x ≤ resultKey y := Nat.le_of_not_lt hge
        refine List.pairwise_cons.mpr ⟨?_, h⟩
        intro z hz
        rcases List.mem_cons.mp hz with hzy | hz2
        · rw [hzy]; exact hxy
        · exact hxy.trans (hy z hz2)

theorem sortByDocType_pairwise (l : List DocResult) :
    List.Pairwise (fun a b => resultKey a ≤ resultKey b) (sortByDocType l) := by
  induction l with
  | nil => simp [sortByDocType]
  | cons x xs ih => exact pairwise_insertByKey x (sortByDocType xs) ih

theorem resultKey_of_doc_type {r : DocResult} {t : String} (h : r.doc_type = t) :
    resultKey r = docTypeOrder t := by
  unfold resultKey
  rw [h]

theorem filter_insertByKey (t : String) (x : DocResult) (l : List DocResult) :
    (insertByKey x l).filter (fun r => r.doc_type == t)
      = (x :: l).filter (fun r => r.doc_type == t) := by
  induction l with
  | nil => rfl
  | cons y ys ih =>
      unfold insertByKey
      split
      case isTrue hlt =>
        by_cases hqx : x.doc_type = t
        · have hkx : resultKey x = docTypeOrder t := resultKey_of_doc_type hqx
          have hqy : ¬ y.doc_type = t := by
            intro hy
            have hky : resultKey y = docTypeOrder t := resultKey_of_doc_type hy
            rw [hkx] at hlt
            rw [hky] at hlt
            exact Nat.lt_irrefl _ hlt
          simp [List.filter_cons, hqx, hqy, ih]
        · simp [List.filter_cons, hqx, ih]
      case isFalse hge => rfl

theorem filter_sortByDocType (t : String) (l : List DocResult) :
    (sortByDocType l).filter (fun r => r.doc_type == t)
      = l.filter (fun r => r.doc_type == t) := by
  induction l with
  | nil => rfl
  | cons x xs ih =>
      show (insertByKey x (sortByDocType xs)).filter _ = _
      rw [filter_insertByKey]
      simp [List.filter_cons, ih]

theorem countP_selected_enumFrom (l : List ScoredStrategy) (k i : Nat) :
    ((List.enumFrom k l).map
        (fun p => { p.2.strat with selected := decide (p.1 = i) })).countP
        (fun s => s.selected)
      = if k ≤ i ∧ i < k + l.length then 1 else 0 := by
  induction l generalizing k with
  | nil =>
      simp only [List.enumFrom_nil, List.map_nil, List.countP_nil,
        List.length_nil, Nat.add_zero]
      split_ifs with hif
      · omega
      · rfl
  | cons x xs ih =>
      have hstep : List.enumFrom k (x :: xs) = (k, x) :: List.enumFrom (k + 1) xs := rfl
      rw [hstep, List.map_cons, List.countP_cons, ih (k + 1)]
      simp only [decide_eq_true_eq, List.length_cons]
      split_ifs <;> omega

theorem selectStep_foldl_mem (l : List (Nat × ScoredStrategy))
    (acc : Option (Nat × ScoredStrategy)) (q : Nat × ScoredStrategy)
    (h : l.foldl selectStep acc = some q) : acc = some q ∨ q ∈ l := by
  induction l generalizing acc with
  | nil => exact Or.inl h
  | cons x xs ih =>
      rcases ih (selectStep acc x) h with h2 | h2
      · cases acc with
        | none =>
            simp only [selectStep] at h2
            split_ifs at h2
            refine Or.inr ?_
            rw [← Option.some_inj.mp h2]
            exact List.mem_cons_self x xs
        | some a =>
            simp only [selectStep] at h2
            split_ifs at h2
            · exact Or.inl h2
            · refine Or.inr ?_
              rw [← Option.some_inj.mp h2]
              exact List.mem_cons_self x xs
            · exact Or.inl h2
      · exact Or.inr (List.mem_cons_of_mem x h2)

theorem selectBest_index_lt (cands : List ScoredStrategy)
    (q : Nat × ScoredStrategy) (h : selectBest cands = some q) :
    q.1 < cands.length := by
  rcases selectStep_foldl_mem cands.enum none q h with h2 | h2
  · exact absurd h2 (by simp)
  · have h3 := List.fst_lt_add_of_mem_enumFrom h2
    simpa using h3

theorem runAnalysis_comm (k1 k2 : AnalysisStage) (s : ClaimSnapshot)
    (m : AnalysisStage → Option AnalysisFinding) :
    runAnalysis k1 s (runAnalysis k2 s m) = runAnalysis k2 s (runAnalysis k1 s m) := by
  funext k3
  by_cases h1 : k3 = k1
  · by_cases h2 : k3 = k2
    · subst h1; subst h2; rfl
    · subst h1; simp [runAnalysis, h2]
  · by_cases h2 : k3 = k2
    · subst h2; simp [runAnalysis, h1]
    · simp [runAnalysis, h1, h2]

theorem runAnalyses_perm {ks1 ks2 : List AnalysisStage} (s : ClaimSnapshot)
    (h : List.Perm ks1 ks2) :
    ∀ m, runAnalyses ks1 s m = runAnalyses ks2 s m := by
  induction h with
  | nil => intro m; rfl
  | cons x h ih =>
      intro m
      show runAnalyses _ s (runAnalysis x s m) = runAnalyses _ s (runAnalysis x s m)
      exact ih (runAnalysis x s m)
  | swap x y l =>
      intro m
      show runAnalyses l s (runAnalysis x s (runAnalysis y s m))
          = runAnalyses l s (runAnalysis y s (runAnalysis x s m))
      rw [runAnalysis_comm]
  | trans h1 h2 ih1 ih2 =>
      intro m
      rw [ih1 m, ih2 m]

theorem runAnalyses_not_mem {k : AnalysisStage} {ks : List AnalysisStage}
    (s : ClaimSnapshot) (h : k ∉ ks) :
    ∀ m, runAnalyses ks s m k = m k := by
  induction ks with
  | nil => intro m; rfl
  | cons x xs ih =>
      intro m
      have hk : k ≠ x := fun e => h (e ▸ List.mem_cons_self x xs)
      have h2 : k ∉ xs := fun hm => h (List.mem_cons_of_mem _ hm)
      show runAnalyses xs s (runAnalysis x s m) k = m k
      rw [ih h2 (runAnalysis x s m)]
      simp [runAnalysis, hk]

theorem auditFold_append (ps : List (String × String)) (st : AuditLogState) :
    ∃ tail, (ps.foldl (fun s p => recordEvent p.1 p.2 ("completed") s) st).events
      = st.events ++ tail := by
  induction ps generalizing st with
  | nil => exact ⟨[], by simp⟩
  | cons p ps ih =>
      obtain ⟨t, ht⟩ := ih (recordEvent p.1 p.2 ("completed") st)
      refine ⟨⟨st.clock, p.1, p.2, "completed"⟩ :: t, ?_⟩
      show (ps.foldl _ (recordEvent p.1 p.2 ("completed") st)).events = _
      rw [ht]
      show (st.events ++ [⟨st.clock, p.1, p.2, "completed"⟩]) ++ t = _
      rw [List.append_assoc]
      rfl

/-! ## Claim theorems -/

/-- Claim C1, counterexample: the streamed output consumed by the main
loop of src/ui/app.py does not always contain either a complete report
or only a failure — on a stream with one well-formed chunk and one
chunk whose model_dump raises, the surfaced collector is report content
concatenated with an inline error fragment, a degraded mixed document. -/
theorem C1_counterexample :
    uiMainLoop [demoGoodChunk, Chunk.asObj (Except.error ("model_dump failed"))]
      = "REPORT" ++ errorBox ("model_dump failed")
    ∧ "REPORT" ≠ ""
    ∧ errorBox ("model_dump failed") ≠ "" := by
  refine ⟨rfl, by decide, by decide⟩

/-- Claim C1, amended: the main loop of src/ui/app.py is total and
isolates per-chunk failures — every chunk contributes exactly one block
to the surfaced output (its formatted content when extraction succeeds,
an inline error box when it raises) independently of the other chunks,
so the output can mix report content with error fragments instead of
being either a complete report or only a failure. -/
theorem C1_amended (xs : List Chunk) (ch : Chunk) (ys : List Chunk) :
    uiMainLoop (xs ++ ch :: ys)
      = uiMainLoop xs ++ (processChunk ch ++ uiMainLoop ys)
    ∧ (∀ e, ch = Chunk.asObj (Except.error e) → processChunk ch = errorBox e)
    ∧ (∀ dc, ch = Chunk.asDict dc →
        processChunk ch = formatChunkToMarkdown (dictGetContent dc)) := by
  refine ⟨uiLoop_split xs ch ys, ?_, ?_⟩
  · intro e he
    rw [he]
    rfl
  · intro dc hdc
    rw [hdc]
    rfl

/-- Witness for the amended C1 theorem at a concrete stream. -/
theorem C1_amended_witness :
    uiMainLoop [demoGoodChunk, Chunk.asObj (Except.error ("boom"))]
      = uiMainLoop [demoGoodChunk] ++ (errorBox ("boom") ++ uiMainLoop []) := by
  have h := C1_amended [demoGoodChunk] (Chunk.asObj (Except.error ("boom"))) []
  have h1 := h.1
  rw [h.2.1 ("boom") rfl] at h1
  exact h1

/-- Claim C10: format_chunk_to_markdown of src/ui/app.py is total; on
non-dictionary input it returns str(input) unchanged; on a dictionary
it renders exactly the non-empty sections among title, action, result,
reasoning and confidence (the confidence section, defaulting to 0, is
always non-empty); a formatting exception (float() on a non-numeric
confidence) falls back to returning str(input). -/
theorem C10_formatChunk (v : Val) :
    (∀ s, v = Val.str s → formatChunkToMarkdown v = pyStr v)
    ∧ (∀ n, v = Val.intV n → formatChunkToMarkdown v = pyStr v)
    ∧ (v = Val.noneV → formatChunkToMarkdown v = pyStr v)
    ∧ (∀ t a r re c co q, v = Val.dict t a r re c co →
        pyFloat c = Except.ok q →
        formatChunkToMarkdown v
            = sectionBox (includedSections t a r re (confidencePercent q))
          ∧ (∀ p ∈ chunkSections t a r re (confidencePercent q),
              (p ∈ includedSections t a r re (confidencePercent q) ↔ p.2 ≠ ""))
          ∧ ("📈 Confidence", confidencePercent q)
              ∈ includedSections t a r re (confidencePercent q))
    ∧ (∀ t a r re c co e, v = Val.dict t a r re c co →
        pyFloat c = Except.error e →
        formatChunkToMarkdown v = pyStr v) := by
  refine ⟨?_, ?_, ?_, ?_, ?_⟩
  · intro s hv; rw [hv]; rfl
  · intro n hv; rw [hv]; rfl
  · intro hv; rw [hv]; rfl
  · intro t a r re c co q hv hc
    subst hv
    refine ⟨?_, ?_, ?_⟩
    · simp [formatChunkToMarkdown, hc]
    · intro p hp
      simp [includedSections, List.mem_filter, hp, bne_iff_ne]
    · refine List.mem_filter.mpr ⟨?_, ?_⟩
      · simp [chunkSections]
      · simpa [bne_iff_ne] using confidencePercent_ne_empty q
  · intro t a r re c co e hv hc
    subst hv
    simp [formatChunkToMarkdown, hc]

/-- Witness for C10 at concrete inputs: a non-dict value is returned
as its str(), a dict with a valid confidence renders its section box. -/
theorem C10_witness :
    formatChunkToMarkdown (Val.str ("hello")) = "hello"
    ∧ formatChunkToMarkdown (Val.dict ("T") ("") ("") ("") (some (ConfVal.num (17/20))) none)
        = sectionBox (includedSections ("T") ("") ("") ("") (confidencePercent (17/20))) := by
  constructor
  · exact (C10_formatChunk (Val.str ("hello"))).1 ("hello") rfl
  · exact ((C10_formatChunk (Val.dict ("T") ("") ("") ("") (some (ConfVal.num (17/20))) none)).2.2.2.1
      ("T") ("") ("") ("") (some (ConfVal.num (17/20))) none (17/20) rfl rfl).1

/-- The file name of a processing result is the name of its file,
whatever the save and conversion outcomes were. -/
theorem processOne_file_name (f : UploadedFile) (dt : String) :
    (processOne f dt).file_name = f.name := by
  unfold processOne processDocument
  cases f.saveResult with
  | ok u => cases f.convertResult <;> rfl
  | error e => rfl

/-- Every processing result is well formed. -/
theorem processOne_wellFormed (f : UploadedFile) (dt : String) :
    wellFormedResult (processOne f dt) := by
  unfold processOne processDocument wellFormedResult
  cases f.saveResult with
  | ok u =>
      cases f.convertResult with
      | ok md => exact Or.inl ⟨rfl, rfl⟩
      | error e => exact Or.inr ⟨rfl, rfl⟩
  | error e => exact Or.inr ⟨rfl, rfl⟩

/-- Claim C8: process_documents of src/ui/app.py is total over its
documented input shape and isolates failures — every result is a well
formed status/file_name/doc_type dictionary (success results carry
content, error results carry an error), and each non-None file
contributes exactly one result in order, regardless of whether saving
or converting any other file raised. -/
theorem C8_processDocuments (c d b : Option UploadedFile)
    (o : Option (List UploadedFile)) :
    (∀ r ∈ processDocuments c d b o, wellFormedResult r)
    ∧ (processDocuments c d b o).map (fun r => r.file_name)
        = (c.toList ++ d.toList ++ b.toList ++ o.getD []).map (fun f => f.name)
    ∧ (processDocuments c d b o).length
        = c.toList.length + d.toList.length + b.toList.length + (o.getD []).length := by
  refine ⟨?_, ?_, ?_⟩
  · intro r hr
    unfold processDocuments at hr
    simp only [List.mem_append, optSlot, List.mem_map] at hr
    rcases hr with ((h1 | h2) | h3) | h4
    · cases c with
      | none => simp at h1
      | some f =>
          simp at h1
          rw [h1]
          exact processOne_wellFormed f _
    · cases d with
      | none => simp at h2
      | some f =>
          simp at h2
          rw [h2]
          exact processOne_wellFormed f _
    · cases b with
      | none => simp at h3
      | some f =>
          simp at h3
          rw [h3]
          exact processOne_wellFormed f _
    · obtain ⟨f, _, hf⟩ := h4
      rw [← hf]
      exact processOne_wellFormed f _
  · unfold processDocuments
    cases c <;> cases d <;> cases b <;>
      simp [optSlot, processOne_file_name, List.map_map, Function.comp]
  · unfold processDocuments
    cases c <;> cases d <;> cases b <;> simp [optSlot] <;> omega

/-- Witness for C8 at three concrete files, one of which fails to
convert and one of which fails to save: each still yields exactly one
result, in order. -/
theorem C8_witness :
    (processDocuments (some demoFileA) none (some demoFileB) (some [demoFileC])).map
        (fun r => r.file_name)
      = ["claim.pdf", "bills.pdf", "note.pdf"] := by
  have h := (C8_processDocuments (some demoFileA) none (some demoFileB)
    (some [demoFileC])).2.1
  rw [h]
  rfl

/-- Claim C9: prepare_content of src/ui/app.py orders blocks by
document type deterministically — the sorted list is a permutation of
the input with keys in nondecreasing order, entries of equal document
type keep their input order (stable sort), the output is the
concatenation of exactly one block per entry (error entries included),
and the type keys order Claim Form before Discharge Note before
Medical Bills before Supporting Document before unknown types. -/
theorem C9_prepareContent (rs : List DocResult) :
    List.Perm (sortByDocType rs) rs
    ∧ List.Pairwise (fun a b => resultKey a ≤ resultKey b) (sortByDocType rs)
    ∧ (∀ t, (sortByDocType rs).filter (fun r => r.doc_type == t)
        = rs.filter (fun r => r.doc_type == t))
    ∧ prepareContent rs = String.join ((sortByDocType rs).map blockOf)
    ∧ docTypeOrder ("Claim Form") < docTypeOrder ("Discharge Note")
    ∧ docTypeOrder ("Discharge Note") < docTypeOrder ("Medical Bills")
    ∧ docTypeOrder ("Medical Bills") < docTypeOrder ("Supporting Document")
    ∧ (∀ t, t ≠ "Claim Form" → t ≠ "Discharge Note" → t ≠ "Medical Bills" →
        t ≠ "Supporting Document" →
        docTypeOrder ("Supporting Document") < docTypeOrder t) := by
  refine ⟨sortByDocType_perm rs, sortByDocType_pairwise rs,
    (fun t => filter_sortByDocType t rs), rfl, by decide, by decide, by decide, ?_⟩
  intro t h1 h2 h3 h4
  unfold docTypeOrder
  rw [if_neg h1, if_neg h2, if_neg h3, if_neg h4]
  decide

/-- Witness for C9 at a concrete result list: the two Claim Form
entries come out in input order ahead of the Medical Bills entry. -/
theorem C9_witness :
    (sortByDocType demoResults).filter (fun r => r.doc_type == "Claim Form")
      = [⟨DocStatus.success, "claim.pdf", "Claim Form", some ("C1"), none⟩,
         ⟨DocStatus.success, "claim2.pdf", "Claim Form", some ("C2"), none⟩] := by
  have h := (C9_prepareContent demoResults).2.2.1 "Claim Form"
  rw [h]
  rfl

/-- Claim C2 (spec-modelled): after a successful grading step exactly
one CalculationStrategy is marked selected — never zero, never more
than one — and the selection is a deterministic function of the
candidate set and their scores: two runs on the identical candidate
set select the same strategy. -/
theorem C2_grading (cands : List ScoredStrategy)
    (out1 out2 : List CalculationStrategy)
    (h1 : gradeAndSelect cands = Except.ok out1)
    (h2 : gradeAndSelect cands = Except.ok out2) :
    out1.countP (fun s => s.selected) = 1 ∧ out1 = out2 := by
  constructor
  · unfold gradeAndSelect at h1
    cases hsel : selectBest cands with
    | none =>
        rw [hsel] at h1
        exact Except.noConfusion h1
    | some q =>
        rw [hsel] at h1
        obtain ⟨i, cstrat⟩ := q
        have hout : (cands.enum.map
            (fun p => { p.2.strat with selected := decide (p.1 = i) })) = out1 := by
          injection h1
        rw [← hout]
        have hb : i < cands.length := selectBest_index_lt cands (i, cstrat) hsel
        have h3 := countP_selected_enumFrom cands 0 i
        have h4 : List.enum cands = List.enumFrom 0 cands := rfl
        rw [h4]
        rw [h3]
        rw [if_pos ⟨Nat.zero_le i, by omega⟩]
  · have h5 : Except.ok (ε := String) out1 = Except.ok out2 := h1.symm.trans h2
    injection h5

/-- Witness for C2 at two concrete scored candidates: exactly one
strategy comes out marked selected. -/
theorem C2_witness : demoSelected.countP (fun s => s.selected) = 1 :=
  (C2_grading demoCands demoSelected demoSelected rfl rfl).1

/-- Claim C3 (spec-modelled): re-running the financial analysis with
the identical snapshot and rule set is idempotent and stores the
finding (with its eligible-amount trace) determined purely by those
inputs, and dispatching the analyses in any order produces identical
findings (order-insensitivity). -/
theorem C3_analyses :
    (∀ s m, runAnalysis AnalysisStage.financial s
        (runAnalysis AnalysisStage.financial s m)
      = runAnalysis AnalysisStage.financial s m)
    ∧ (∀ s m, (runAnalysis AnalysisStage.financial s m) AnalysisStage.financial
        = some (analyzeStage AnalysisStage.financial s))
    ∧ (∀ s m ks1 ks2, List.Perm ks1 ks2 →
        runAnalyses ks1 s m = runAnalyses ks2 s m) := by
  refine ⟨?_, ?_, ?_⟩
  · intro s m
    funext k2
    by_cases h : k2 = AnalysisStage.financial <;> simp [runAnalysis, h]
  · intro s m
    simp [runAnalysis]
  · intro s m ks1 ks2 h
    exact runAnalyses_perm s h m

/-- Witness for C3: running the three analyses in two different orders
on a concrete snapshot yields the same findings. -/
theorem C3_witness :
    runAnalyses [AnalysisStage.medical, AnalysisStage.fraud, AnalysisStage.financial]
        demoSnapshot (fun _ => none)
      = runAnalyses [AnalysisStage.financial, AnalysisStage.fraud, AnalysisStage.medical]
        demoSnapshot (fun _ => none) :=
  C3_analyses.2.2 demoSnapshot (fun _ => none) _ _ (by decide)

/-- Claim C4 (spec-modelled): on the scenario of three line items
totalling 50000 with a room-rent sub-limit of 2000 per day over a
5-day stay against a claimed 15000 room charge, the calculation yields
an eligible room charge of exactly 10000 and flags a variance of 5000
citing the sub-limit clause. -/
theorem C4_scenario :
    scenarioItems.length = 3
    ∧ (scenarioItems.map (fun li => li.claimed)).sum = 50000
    ∧ eligibleForItem scenarioRules scenarioRoomItem = 10000
    ∧ varianceFlagsFor scenarioRules scenarioItems
        = [⟨"Room Charges", 5000, "Clause 4.2 room-rent sub-limit"⟩] := by
  refine ⟨rfl, rfl, rfl, rfl⟩

/-- Claim C5 (spec-modelled): contradictory findings — medical
necessity denied while the financial analysis approves the full
amount — produce an unresolved DiscrepancyRecord of severity High
whenever the materiality exceeds the configured threshold; report
assembly fails while any record is unresolved; and resolving a record
reruns only the implicated stages, leaving every other finding
untouched. -/
theorem C5_reconciliation (threshold : Nat) (f g : AnalysisFinding)
    (amt : Nat) (tr : List TraceStep) :
    (f.verdict = Verdict.medicalNecessity false →
      g.verdict = Verdict.eligibleOutcome amt amt tr → 0 < amt →
      threshold < amt →
      crossCheck threshold f g
        = some ⟨f.stage, g.stage, "contradictory findings",
            DiscrepancySeverity.high, false, [f.stage, g.stage]⟩)
    ∧ (∀ st : PipelineState, ∀ d ∈ st.discrepancies, d.resolved = false →
        assembleReport st = Except.error ("UnresolvedDiscrepancy"))
    ∧ (∀ (st : PipelineState) (dr : DiscrepancyRecord) (k : AnalysisStage),
        k ∉ dr.implicatedStages →
        (resolveDiscrepancy dr st).findings k = st.findings k) := by
  refine ⟨?_, ?_, ?_⟩
  · intro hf hg hpos hthr
    unfold crossCheck
    have hcontra : contradictoryFindings f g = true := by
      unfold contradictoryFindings
      rw [hf, hg]
      simp [hpos]
    rw [if_pos hcontra]
    have hmat : materialityOf f g = amt := by
      unfold materialityOf
      rw [hf, hg]
    have hsev : severityOf threshold (materialityOf f g) = DiscrepancySeverity.high := by
      rw [hmat]
      unfold severityOf
      rw [if_pos hthr]
    rw [hsev]
  · intro st d hd hres
    unfold assembleReport
    rw [if_pos]
    refine List.any_eq_true.mpr ⟨d, hd, ?_⟩
    rw [hres]
    rfl
  · intro st dr k hk
    show runAnalyses dr.implicatedStages st.snapshot st.findings k = st.findings k
    exact runAnalyses_not_mem st.snapshot hk st.findings

/-- Witness for C5 at concrete findings and state: the High record is
produced, assembly is blocked, and the fraud finding survives the
targeted rerun unchanged. -/
theorem C5_witness :
    crossCheck 1000 demoMedFinding demoFinFinding = some demoDiscrepancy
    ∧ assembleReport demoPipelineState = Except.error ("UnresolvedDiscrepancy")
    ∧ (resolveDiscrepancy demoDiscrepancy demoPipelineState).findings
        AnalysisStage.fraud
      = demoPipelineState.findings AnalysisStage.fraud := by
  have h := C5_reconciliation 1000 demoMedFinding demoFinFinding 50000 []
  refine ⟨?_, ?_, ?_⟩
  · exact h.1 rfl rfl (by decide) (by decide)
  · exact h.2.1 demoPipelineState demoDiscrepancy (by decide) rfl
  · exact h.2.2 demoPipelineState demoDiscrepancy AnalysisStage.fraud (by decide)

/-- Claim C6 (spec-modelled): the calculation strategy engine yields at
least two distinct candidates from the same rule set and line items,
distinguished by identifier and application order, every candidate
order being a permutation of the given rule set, and each candidate
resolving to the single numeric eligible amount its order computes on
those line items. -/
theorem C6_strategies (rules : List PolicyRule) (items : List ClaimLineItem) :
    2 ≤ (generateStrategies rules items).length
    ∧ List.Pairwise (fun a b => a.id ≠ b.id) (generateStrategies rules items)
    ∧ ∀ s ∈ generateStrategies rules items,
        List.Perm s.ruleOrder rules
        ∧ s.amount = totalEligible s.ruleOrder items := by
  refine ⟨by simp [generateStrategies], ?_, ?_⟩
  · unfold generateStrategies
    refine List.Pairwise.cons ?_ (List.Pairwise.cons ?_ (List.pairwise_singleton _ _))
    · intro b hb
      rcases List.mem_cons.mp hb with hb1 | hb2
      · rw [hb1]
        exact (by decide : ("Path A" : String) ≠ "Path B")
      · rcases List.mem_singleton.mp hb2 with hb3
        rw [hb3]
        exact (by decide : ("Path A" : String) ≠ "Path C")
    · intro b hb
      rcases List.mem_singleton.mp hb with hb3
      rw [hb3]
      exact (by decide : ("Path B" : String) ≠ "Path C")
  · intro s hs
    unfold generateStrategies at hs
    rcases List.mem_cons.mp hs with h1 | hs2
    · rw [h1]
      exact ⟨List.Perm.refl rules, rfl⟩
    · rcases List.mem_cons.mp hs2 with h2 | hs3
      · rw [h2]
        exact ⟨List.filter_append_perm isPackageRule rules, rfl⟩
      · rcases List.mem_singleton.mp hs3 with h3
        rw [h3]
        exact ⟨List.filter_append_perm isSubLimitRule rules, rfl⟩

/-- Witness for C6 at the scenario rule set and items. -/
theorem C6_witness :
    2 ≤ (generateStrategies scenarioRules scenarioItems).length := by
  exact (C6_strategies scenarioRules scenarioItems).1

/-- Claim C7 (spec-modelled): the audit trail of one full claim run is
append-only (each step only appends one event, and a run extends the
existing log), contains exactly one event per stage transition of the
pipeline in order, with no gaps, and its timestamps are strictly
increasing. -/
theorem C7_auditTrail :
    (∀ st, ∃ tail, (runPipelineAudit st).events = st.events ++ tail)
    ∧ (∀ stageName actionDesc outcomeDesc st,
        (recordEvent stageName actionDesc outcomeDesc st).events
          = st.events ++ [⟨st.clock, stageName, actionDesc, outcomeDesc⟩])
    ∧ (runPipelineAudit ⟨0, []⟩).events.map (fun e => e.stage)
        = pipelineStages.map (fun p => p.1)
    ∧ List.Pairwise (fun a b => a.timestamp < b.timestamp)
        (runPipelineAudit ⟨0, []⟩).events
    ∧ (runPipelineAudit ⟨0, []⟩).events.length = pipelineStages.length := by
  refine ⟨?_, ?_, by decide, by decide, by decide⟩
  · intro st
    exact auditFold_append pipelineStages st
  · intro stageName actionDesc outcomeDesc st
    rfl

/-- Witness for C7: a run starting from a non-empty log extends it. -/
theorem C7_witness :
    ∃ tail, (runPipelineAudit ⟨5, [⟨0, "earlier", "a", "b"⟩]⟩).events
      = [⟨0, "earlier", "a", "b"⟩] ++ tail :=
  C7_auditTrail.1 ⟨5, [⟨0, "earlier", "a", "b"⟩]⟩
